import Mathlib

/-!
Verification of the KYC voice bot (`kyc_voice_bot.py`).

The bot collects four fields (name, phone, PAN identifier, consent) over a
speech channel, validates each one with bounded retries, and persists the
record on success.  We embed the dialogue controller shallowly:

* the Speech Input Provider (`listen`) is modelled as a finite stream
  `List (Option String)` of capture results (`none` = capture absence);
* the Speech Output Provider (`speak`) is modelled as an accumulated trace
  of the spoken message strings;
* the mutable `kyc_data` dictionary becomes an explicit record threaded
  through the session, together with a ghost trace of its successive states;
* `datetime.now().isoformat()` is modelled as an explicit `now : String`
  parameter.
-/

namespace KYC

/-- One pop from the input stream: `listen()` returns recognized text or
`None`; an exhausted stream keeps returning capture absence. -/
def listen1 : List (Option String) → Option String × List (Option String)
  | [] => (none, [])
  | x :: xs => (x, xs)

/-- `self.max_retries = 2` from `KYCVoiceBot.__init__`. -/
def max_retries : Nat := 2

/-- `xs` begins with `pre` (character-by-character comparison). -/
def charsBegin : List Char → List Char → Bool
  | [], _ => true
  | _ :: _, [] => false
  | a :: as, b :: bs => a == b && charsBegin as bs

/-- Python's `needle in hay` substring test over strings. -/
def strContains (hay needle : String) : Bool :=
  hay.toList.tails.any (fun t => charsBegin needle.toList t)

/-- Python `str.strip()`: drop whitespace from both ends of the character
list. -/
def stripChars (cs : List Char) : List Char :=
  ((cs.dropWhile Char.isWhitespace).reverse.dropWhile Char.isWhitespace).reverse

/-- Python `str.lower()`. -/
def pyLower (s : String) : String :=
  String.mk (s.toList.map Char.toLower)

/-- `KYCVoiceBot.validate_name`: reject empty / trimmed-length-below-2
input, then require at least one ASCII letter (`re.search(r'[a-zA-Z]', name)`). -/
def validate_name (name : String) : Bool :=
  if name.isEmpty || (stripChars name.toList).length < 2 then false
  else if !(name.toList.any Char.isAlpha) then false
  else true

/-- `KYCVoiceBot.validate_phone`: strip non-digits
(`re.sub(r'[^\d]', '', phone)`), then require length 10 and
`str.isdigit` (which is false on the empty string). -/
def validate_phone (phone : String) : Bool :=
  let phone_cleaned := phone.toList.filter Char.isDigit
  phone_cleaned.length == 10 && (!phone_cleaned.isEmpty && phone_cleaned.all Char.isDigit)

/-- The cleaning step shared by `validate_pan` and `extract_pan`:
`pan.replace(" ", "").upper()`. -/
def panCleaned (s : String) : List Char :=
  (s.toList.filter (fun c => c ≠ ' ')).map Char.toUpper

/-- One character class of the regex `[A-Z]`. -/
def isUpperLetter (c : Char) : Bool := 'A' ≤ c && c ≤ 'Z'

/-- A fixed-length regex as the list of its character classes;
`matchSeq p cs` is `re.match` of the fully anchored pattern `p` on `cs`. -/
def matchSeq : List (Char → Bool) → List Char → Bool
  | [], [] => true
  | [], _ :: _ => false
  | _ :: _, [] => false
  | p :: ps, c :: cs => p c && matchSeq ps cs

/-- The pattern `^[A-Z]{5}[0-9]{4}[A-Z]$` with its repetitions expanded. -/
def panPattern : List (Char → Bool) :=
  [isUpperLetter, isUpperLetter, isUpperLetter, isUpperLetter, isUpperLetter,
   Char.isDigit, Char.isDigit, Char.isDigit, Char.isDigit,
   isUpperLetter]

/-- `KYCVoiceBot.validate_pan`: clean, then require length 10 and a match of
`^[A-Z]{5}[0-9]{4}[A-Z]$`. -/
def validate_pan (pan : String) : Bool :=
  let pan_cleaned := panCleaned pan
  pan_cleaned.length == 10 && matchSeq panPattern pan_cleaned

/-- `KYCVoiceBot.extract_phone`: keep the digits; if at least 10 are present
return the first 10, otherwise return them all. -/
def extract_phone (text : String) : String :=
  let digits := text.toList.filter Char.isDigit
  if digits.length ≥ 10 then String.mk (digits.take 10) else String.mk digits

/-- `KYCVoiceBot.extract_pan`: remove spaces and upper-case. -/
def extract_pan (text : String) : String :=
  String.mk (panCleaned text)

/-! ### Spoken messages (verbatim from the source) -/

def msgReprompt1 : String := "I didn\x27t catch that. Please say it again."

def msgReprompt2 : String := "I\x27m still having trouble hearing you. Let\x27s try one more time."

def msgCantHear (fieldName : String) : String :=
  "I\x27m sorry, I couldn\x27t hear your " ++ fieldName ++ "."

def msgInvalid (fieldName : String) : String :=
  "That " ++ fieldName ++ " doesn\x27t seem valid. Please try again."

def msgLoopReprompt : String := "I didn\x27t catch that. Let\x27s try again."

def msgCantHearResponse : String := "I\x27m sorry, I couldn\x27t hear your response."

def msgUnableVerify (fieldName : String) : String :=
  "I was unable to verify your " ++ fieldName ++ "."

def msgConsentPrompt : String :=
  "Do you consent to this KYC verification? Please say yes or no."

def msgConsentReprompt1 : String := "I didn\x27t catch that. Do you consent? Say yes or no."

def msgConsentReprompt2 : String := "Please say yes or no for consent."

def msgConsentFail : String := "I couldn\x27t get your consent. Verification cannot proceed."

def msgDecline : String := "You have declined consent. Verification cannot proceed."

def msgConsentLoopPrompt : String := "Please say yes or no."

def msgConsentLoopReprompt : String := "I didn\x27t hear you. Say yes or no."

def msgConsentUnintelligible : String :=
  "I couldn\x27t understand your response. Verification cannot proceed."

def msgWelcome : String :=
  "Welcome to Decentro KYC verification. I will guide you through a quick verification process."

def msgNamePrompt : String := "May I have your full name please?"

def msgPhonePrompt : String := "Thank you. Now, please provide your 10-digit mobile number."

def msgPanPrompt : String :=
  "Great. Now, please say your PAN number. That\x27s 10 characters: 5 letters, 4 numbers, and 1 letter."

def msgAbortName : String := "Unable to proceed without a valid name. Ending verification."

def msgAbortPhone : String := "Unable to proceed without a valid phone number. Ending verification."

def msgAbortPan : String := "Unable to proceed without a valid PAN. Ending verification."

def msgSummaryIntro : String := "Thank you. Let me confirm your details."

def msgConsentProvided : String := "Consent: Provided"

def msgComplete : String :=
  "Your KYC verification is complete. Thank you for using Decentro services."

/-! ### Field collection with retry (`get_input_with_retry`) -/

/-- Outcome of one field-collection call: the returned value (`none` =
absent), the remaining input stream, how many `listen()` calls were made,
and the spoken trace. -/
structure FieldOut where
  result : Option String
  rest : List (Option String)
  listens : Nat
  spoken : List String
deriving Repr, DecidableEq

/-- The `for attempt in range(self.max_retries)` validation-retry loop of
`get_input_with_retry`, with `fuel` = number of loop iterations left
(`attempt < self.max_retries - 1` iff, after the current iteration, at
least one more remains, i.e. `fuel > 0` in the successor case). -/
def validationRetryLoop (validate : String → Bool) (extract : String → String)
    (fieldName : String) : Nat → List (Option String) → FieldOut
  | 0, inputs => ⟨none, inputs, 0, [msgUnableVerify fieldName]⟩
  | fuel + 1, inputs =>
    let (r, rest) := listen1 inputs
    match r with
    | none =>
      if fuel == 0 then
        ⟨none, rest, 1, [msgInvalid fieldName, msgCantHearResponse]⟩
      else
        let o := validationRetryLoop validate extract fieldName fuel rest
        ⟨o.result, o.rest, o.listens + 1,
          msgInvalid fieldName :: msgLoopReprompt :: o.spoken⟩
    | some s =>
      let processed := extract s
      if validate processed then
        ⟨some processed, rest, 1, [msgInvalid fieldName]⟩
      else
        let o := validationRetryLoop validate extract fieldName fuel rest
        ⟨o.result, o.rest, o.listens + 1, msgInvalid fieldName :: o.spoken⟩

/-- After a capture succeeded: extract, validate, and on failure enter the
validation-retry loop (lines 125-151 of the source). -/
def afterCapture (validate : String → Bool) (extract : String → String)
    (fieldName : String) (s : String) (rest : List (Option String)) : FieldOut :=
  let processed := extract s
  if validate processed then ⟨some processed, rest, 0, []⟩
  else validationRetryLoop validate extract fieldName max_retries rest

/-- `KYCVoiceBot.get_input_with_retry`: an initial listen, two hard-coded
capture reprompts, then extract/validate with the validation-retry loop. -/
def get_input_with_retry (prompt : String) (validate : String → Bool)
    (extract : String → String) (fieldName : String)
    (inputs : List (Option String)) : FieldOut :=
  let (r1, rest1) := listen1 inputs
  match r1 with
  | some s =>
    let o := afterCapture validate extract fieldName s rest1
    ⟨o.result, o.rest, o.listens + 1, prompt :: o.spoken⟩
  | none =>
    let (r2, rest2) := listen1 rest1
    match r2 with
    | some s =>
      let o := afterCapture validate extract fieldName s rest2
      ⟨o.result, o.rest, o.listens + 2, prompt :: msgReprompt1 :: o.spoken⟩
    | none =>
      let (r3, rest3) := listen1 rest2
      match r3 with
      | some s =>
        let o := afterCapture validate extract fieldName s rest3
        ⟨o.result, o.rest, o.listens + 3,
          prompt :: msgReprompt1 :: msgReprompt2 :: o.spoken⟩
      | none =>
        ⟨none, rest3, 3,
          [prompt, msgReprompt1, msgReprompt2, msgCantHear fieldName]⟩

/-! ### Consent (`get_consent`) -/

/-- The keyword classification of a consent response (lines 174-181):
affirmative substrings are checked before negative ones. -/
def consentClassify (response : String) : Option Bool :=
  let l := pyLower response
  if strContains l "yes" || strContains l "yeah" || strContains l "sure" then
    some true
  else if strContains l "no" || strContains l "nope" then
    some false
  else
    none

/-- Outcome of the consent step. -/
structure ConsentOut where
  result : Bool
  rest : List (Option String)
  listens : Nat
  spoken : List String
deriving Repr, DecidableEq

/-- The `for attempt in range(self.max_retries)` loop of `get_consent`,
with `fuel` = remaining iterations. -/
def consentRetryLoop : Nat → List (Option String) → ConsentOut
  | 0, inputs => ⟨false, inputs, 0, [msgConsentUnintelligible]⟩
  | fuel + 1, inputs =>
    let (r, rest) := listen1 inputs
    match r with
    | none =>
      if fuel == 0 then
        ⟨false, rest, 1, [msgConsentLoopPrompt, msgConsentFail]⟩
      else
        let o := consentRetryLoop fuel rest
        ⟨o.result, o.rest, o.listens + 1,
          msgConsentLoopPrompt :: msgConsentLoopReprompt :: o.spoken⟩
    | some s =>
      match consentClassify s with
      | some true => ⟨true, rest, 1, [msgConsentLoopPrompt]⟩
      | some false => ⟨false, rest, 1, [msgConsentLoopPrompt, msgDecline]⟩
      | none =>
        let o := consentRetryLoop fuel rest
        ⟨o.result, o.rest, o.listens + 1, msgConsentLoopPrompt :: o.spoken⟩

/-- After a consent capture succeeded: classify, and on an unrecognized
response enter the consent retry loop. -/
def consentAfterCapture (s : String) (rest : List (Option String)) : ConsentOut :=
  match consentClassify s with
  | some true => ⟨true, rest, 0, []⟩
  | some false => ⟨false, rest, 0, [msgDecline]⟩
  | none => consentRetryLoop max_retries rest

/-- `KYCVoiceBot.get_consent`: initial listen, two hard-coded capture
reprompts, then keyword classification with the consent retry loop. -/
def get_consent (inputs : List (Option String)) : ConsentOut :=
  let (r1, rest1) := listen1 inputs
  match r1 with
  | some s =>
    let o := consentAfterCapture s rest1
    ⟨o.result, o.rest, o.listens + 1, msgConsentPrompt :: o.spoken⟩
  | none =>
    let (r2, rest2) := listen1 rest1
    match r2 with
    | some s =>
      let o := consentAfterCapture s rest2
      ⟨o.result, o.rest, o.listens + 2,
        msgConsentPrompt :: msgConsentReprompt1 :: o.spoken⟩
    | none =>
      let (r3, rest3) := listen1 rest2
      match r3 with
      | some s =>
        let o := consentAfterCapture s rest3
        ⟨o.result, o.rest, o.listens + 3,
          msgConsentPrompt :: msgConsentReprompt1 :: msgConsentReprompt2 :: o.spoken⟩
      | none =>
        ⟨false, rest3, 3,
          [msgConsentPrompt, msgConsentReprompt1, msgConsentReprompt2, msgConsentFail]⟩

/-! ### The session (`run_kyc_session` and persistence) -/

/-- The `self.kyc_data` dictionary. -/
structure KYCData where
  name : String
  phone : String
  pan : String
  consent : Bool
  timestamp : String
deriving Repr, DecidableEq

/-- The record as initialized in `KYCVoiceBot.__init__`. -/
def initKYC : KYCData := ⟨"", "", "", false, ""⟩

/-- Outcome of `run_kyc_session` (returned bool, final record, remaining
input stream, spoken trace) plus a ghost trace of every state the record
passes through, starting with the initial one. -/
structure SessionOut where
  success : Bool
  record : KYCData
  rest : List (Option String)
  spoken : List String
  trace : List KYCData
deriving Repr, DecidableEq

/-- `KYCVoiceBot.run_kyc_session`: name → phone → PAN → consent, then the
summary, the timestamp (`now`), and the completion message.  The Python
`if name:` truthiness tests make both `None` and the empty string abort. -/
def run_kyc_session (now : String) (inputs : List (Option String)) : SessionOut :=
  let d0 := initKYC
  let o1 := get_input_with_retry msgNamePrompt validate_name id "name" inputs
  match o1.result with
  | none => ⟨false, d0, o1.rest, (msgWelcome :: o1.spoken) ++ [msgAbortName], [d0]⟩
  | some nm =>
    if nm.isEmpty then
      ⟨false, d0, o1.rest, (msgWelcome :: o1.spoken) ++ [msgAbortName], [d0]⟩
    else
      let d1 : KYCData := { d0 with name := nm }
      let o2 := get_input_with_retry msgPhonePrompt validate_phone extract_phone
        "phone number" o1.rest
      match o2.result with
      | none =>
        ⟨false, d1, o2.rest,
          (msgWelcome :: o1.spoken) ++ o2.spoken ++ [msgAbortPhone], [d0, d1]⟩
      | some ph =>
        if ph.isEmpty then
          ⟨false, d1, o2.rest,
            (msgWelcome :: o1.spoken) ++ o2.spoken ++ [msgAbortPhone], [d0, d1]⟩
        else
          let d2 : KYCData := { d1 with phone := ph }
          let o3 := get_input_with_retry msgPanPrompt validate_pan extract_pan
            "PAN" o2.rest
          match o3.result with
          | none =>
            ⟨false, d2, o3.rest,
              (msgWelcome :: o1.spoken) ++ o2.spoken ++ o3.spoken ++ [msgAbortPan],
              [d0, d1, d2]⟩
          | some pn =>
            if pn.isEmpty then
              ⟨false, d2, o3.rest,
                (msgWelcome :: o1.spoken) ++ o2.spoken ++ o3.spoken ++ [msgAbortPan],
                [d0, d1, d2]⟩
            else
              let d3 : KYCData := { d2 with pan := pn }
              let oc := get_consent o3.rest
              let d4 : KYCData := { d3 with consent := oc.result }
              if oc.result then
                let d5 : KYCData := { d4 with timestamp := now }
                ⟨true, d5, oc.rest,
                  (msgWelcome :: o1.spoken) ++ o2.spoken ++ o3.spoken ++ oc.spoken ++
                    [msgSummaryIntro, "Name: " ++ d4.name, "Phone: " ++ d4.phone,
                     "PAN: " ++ d4.pan, msgConsentProvided, msgComplete],
                  [d0, d1, d2, d3, d4, d5]⟩
              else
                ⟨false, d4, oc.rest,
                  (msgWelcome :: o1.spoken) ++ o2.spoken ++ o3.spoken ++ oc.spoken,
                  [d0, d1, d2, d3, d4]⟩

/-- `main`: the record is handed to `save_to_json` exactly when
`run_kyc_session` returned `True`; otherwise nothing is persisted. -/
def session_persisted (now : String) (inputs : List (Option String)) : Option KYCData :=
  let o := run_kyc_session now inputs
  if o.success then some o.record else none

/-! ### Verification vocabulary -/

/-- Every message `get_input_with_retry` can possibly speak, given its
prompt and field name. -/
def fieldMsgs (p f : String) : List String :=
  [p, msgReprompt1, msgReprompt2, msgCantHear f, msgInvalid f, msgLoopReprompt,
   msgCantHearResponse, msgUnableVerify f]

/-- Every message `get_consent` can possibly speak. -/
def consentMsgs : List String :=
  [msgConsentPrompt, msgConsentReprompt1, msgConsentReprompt2, msgConsentFail,
   msgDecline, msgConsentLoopPrompt, msgConsentLoopReprompt, msgConsentUnintelligible]

/-- Each text field of the record is either still empty or satisfies its
validator. -/
def fieldInvB (d : KYCData) : Bool :=
  (d.name == "" || validate_name d.name) &&
  (d.phone == "" || validate_phone d.phone) &&
  (d.pan == "" || validate_pan d.pan)

/-- One legal assignment between successive record states: exactly one field
changes, fields are assigned strictly in the order
name → phone → pan → consent → timestamp, a field is only assigned while
still empty, and assigned text fields satisfy their validators. -/
def assignStepB (a b : KYCData) : Bool :=
  (validate_name b.name && a.name == "" && a.phone == "" && a.pan == "" &&
    b == { a with name := b.name }) ||
  (validate_phone b.phone && a.name != "" && a.phone == "" && a.pan == "" &&
    b == { a with phone := b.phone }) ||
  (validate_pan b.pan && a.phone != "" && a.pan == "" &&
    b == { a with pan := b.pan }) ||
  (a.pan != "" && a.consent == false && a.timestamp == "" &&
    b == { a with consent := b.consent }) ||
  (a.consent == true && a.timestamp == "" && b == { a with timestamp := b.timestamp })

/-- All adjacent pairs of the list satisfy `step`. -/
def chainB (step : KYCData → KYCData → Bool) : List KYCData → Bool
  | [] => true
  | [_] => true
  | a :: b :: rest => step a b && chainB step (b :: rest)

/-! ### Helper lemmas -/

theorem validate_name_true_iff (s : String) :
    validate_name s = true ↔
      2 ≤ (stripChars s.toList).length ∧ s.toList.any Char.isAlpha = true := by
  unfold validate_name
  split_ifs with h1 h2
  · simp only [Bool.false_eq_true, false_iff, not_and]
    intro hlen _
    rcases Bool.or_eq_true_iff.1 h1 with he | hlt
    · have hs : s = "" := (String.isEmpty_iff s).1 he
      subst hs
      simp [stripChars] at hlen
    · have := of_decide_eq_true hlt
      omega
  · simp only [Bool.false_eq_true, false_iff, not_and]
    intro _ hany
    obtain ⟨x, hx, hxa⟩ := List.any_eq_true.1 hany
    simp only [Bool.not_eq_true', List.any_eq_false] at h2
    exact absurd hxa (by simp [h2 x hx])
  · simp only [true_iff]
    have h1' : s.isEmpty = false ∧ ¬ (stripChars s.toList).length < 2 := by
      simpa using h1
    have h2' : s.toList.any Char.isAlpha = true := by
      simpa using h2
    exact ⟨by omega, h2'⟩

theorem extract_phone_toList (s : String) :
    (extract_phone s).toList = (s.toList.filter Char.isDigit).take 10 := by
  unfold extract_phone
  dsimp only
  split_ifs with h
  · rfl
  · show s.toList.filter Char.isDigit = _
    exact (List.take_of_length_le (by omega)).symm

theorem validate_phone_true_iff (s : String) :
    validate_phone s = true ↔ (s.toList.filter Char.isDigit).length = 10 := by
  unfold validate_phone
  simp only [Bool.and_eq_true, beq_iff_eq, Bool.not_eq_true', List.all_eq_true]
  constructor
  · rintro ⟨h, -⟩
    exact h
  · intro h
    refine ⟨h, ?_, fun c hc => (List.mem_filter.1 hc).2⟩
    rcases hne : (s.toList.filter Char.isDigit).isEmpty with _ | _
    · rfl
    · rw [List.isEmpty_iff.1 hne] at h
      simp at h

theorem validate_extract_phone_iff (s : String) :
    validate_phone (extract_phone s) = true ↔
      10 ≤ (s.toList.filter Char.isDigit).length := by
  rw [validate_phone_true_iff, extract_phone_toList,
    List.filter_eq_self.2 fun c hc => (List.mem_filter.1 (List.mem_of_mem_take hc)).2,
    List.length_take]
  omega

/-- C4: For every text input `s`, name validation returns false if and only
if the trimmed length of `s` is less than 2 or `s` contains no alphabetic
character; in particular `"A"` and `"123"` are rejected and `"Al"` is
accepted. -/
theorem C4_validate_name (s : String) :
    (validate_name s = false ↔
      (stripChars s.toList).length < 2 ∨ ¬ s.toList.any Char.isAlpha = true) ∧
    validate_name "A" = false ∧ validate_name "123" = false ∧
    validate_name "Al" = true := by
  refine ⟨?_, by decide, by decide, by decide⟩
  rw [← Bool.not_eq_true, validate_name_true_iff]
  constructor
  · intro h
    by_cases hl : (stripChars s.toList).length < 2
    · exact Or.inl hl
    · exact Or.inr fun ha => h ⟨by omega, ha⟩
  · rintro (hl | ha) ⟨h2, hany⟩
    · omega
    · exact ha hany

/-- C5: For every text input `s`, phone extraction returns the digit
characters of `s` truncated to the first 10 (all of them when fewer than 10
are present — `List.take` captures both cases), phone validation accepts
exactly the texts whose digit characters number exactly 10, and hence the
extract-then-validate pipeline accepts `s` iff `s` contains at least 10
digit characters; `"my number is 98-765 43210 ok"` extracts to
`"9876543210"` and is valid while `"123"` is invalid. -/
theorem C5_phone (s : String) :
    ((extract_phone s).toList = (s.toList.filter Char.isDigit).take 10) ∧
    (validate_phone s = true ↔ (s.toList.filter Char.isDigit).length = 10) ∧
    (validate_phone (extract_phone s) = true ↔
      10 ≤ (s.toList.filter Char.isDigit).length) ∧
    extract_phone "my number is 98-765 43210 ok" = "9876543210" ∧
    validate_phone (extract_phone "my number is 98-765 43210 ok") = true ∧
    extract_phone "123" = "123" ∧
    validate_phone (extract_phone "123") = false :=
  ⟨extract_phone_toList s, validate_phone_true_iff s, validate_extract_phone_iff s,
    by decide, by decide, by decide, by decide⟩

theorem length_ten_shape {cs : List Char} (h : cs.length = 10) :
    ∃ c0 c1 c2 c3 c4 c5 c6 c7 c8 c9,
      cs = [c0, c1, c2, c3, c4, c5, c6, c7, c8, c9] := by
  rcases cs with _ | ⟨c0, cs⟩; · simp at h
  rcases cs with _ | ⟨c1, cs⟩; · simp at h
  rcases cs with _ | ⟨c2, cs⟩; · simp at h
  rcases cs with _ | ⟨c3, cs⟩; · simp at h
  rcases cs with _ | ⟨c4, cs⟩; · simp at h
  rcases cs with _ | ⟨c5, cs⟩; · simp at h
  rcases cs with _ | ⟨c6, cs⟩; · simp at h
  rcases cs with _ | ⟨c7, cs⟩; · simp at h
  rcases cs with _ | ⟨c8, cs⟩; · simp at h
  rcases cs with _ | ⟨c9, cs⟩; · simp at h
  have hnil : cs = [] := by
    simp only [List.length_cons] at h
    exact List.length_eq_zero.1 (by omega)
  subst hnil
  exact ⟨c0, c1, c2, c3, c4, c5, c6, c7, c8, c9, rfl⟩

/-- C6: For every text input `s`, PAN validation accepts `s` iff the string
obtained from `s` by removing spaces and upper-casing has exactly 10
characters matching 5 letters, then 4 digits, then 1 letter; in particular
`"a b c d e 1 2 3 4 f"` is accepted (as `"ABCDE1234F"`) and `"ABCDE12345"`
is rejected. -/
theorem C6_pan (s : String) :
    (validate_pan s = true ↔
      ((panCleaned s).length = 10 ∧
       ((panCleaned s).take 5).all isUpperLetter = true ∧
       (((panCleaned s).drop 5).take 4).all Char.isDigit = true ∧
       ((panCleaned s).drop 9).all isUpperLetter = true)) ∧
    validate_pan "a b c d e 1 2 3 4 f" = true ∧
    extract_pan "a b c d e 1 2 3 4 f" = "ABCDE1234F" ∧
    validate_pan "ABCDE12345" = false := by
  refine ⟨?_, by decide, by decide, by decide⟩
  unfold validate_pan
  dsimp only
  simp only [Bool.and_eq_true, beq_iff_eq]
  constructor
  · rintro ⟨hl, hm⟩
    obtain ⟨c0, c1, c2, c3, c4, c5, c6, c7, c8, c9, heq⟩ := length_ten_shape hl
    rw [heq] at hm ⊢
    have e1 : [c0, c1, c2, c3, c4, c5, c6, c7, c8, c9].take 5 = [c0, c1, c2, c3, c4] := rfl
    have e2 : ([c0, c1, c2, c3, c4, c5, c6, c7, c8, c9].drop 5).take 4
        = [c5, c6, c7, c8] := rfl
    have e3 : [c0, c1, c2, c3, c4, c5, c6, c7, c8, c9].drop 9 = [c9] := rfl
    rw [e1, e2, e3]
    simp only [matchSeq, panPattern, Bool.and_eq_true, Bool.and_true,
      List.all_cons, List.all_nil] at hm ⊢
    refine ⟨rfl, ?_, ?_, ?_⟩ <;> tauto
  · rintro ⟨hl, h5, h4, h1⟩
    obtain ⟨c0, c1, c2, c3, c4, c5, c6, c7, c8, c9, heq⟩ := length_ten_shape hl
    rw [heq] at h5 h4 h1 ⊢
    have e1 : [c0, c1, c2, c3, c4, c5, c6, c7, c8, c9].take 5 = [c0, c1, c2, c3, c4] := rfl
    have e2 : ([c0, c1, c2, c3, c4, c5, c6, c7, c8, c9].drop 5).take 4
        = [c5, c6, c7, c8] := rfl
    have e3 : [c0, c1, c2, c3, c4, c5, c6, c7, c8, c9].drop 9 = [c9] := rfl
    rw [e1] at h5
    rw [e2] at h4
    rw [e3] at h1
    simp only [List.all_cons, List.all_nil, Bool.and_eq_true, Bool.and_true] at h5 h4 h1
    refine ⟨rfl, ?_⟩
    simp only [matchSeq, panPattern, Bool.and_eq_true, Bool.and_true]
    tauto

/-- C1: On the captured inputs "John Smith", "9876543210", "abcde1234f",
"yes" (each capture succeeding on the first attempt), the session completes
successfully, the final record is name "John Smith", phone "9876543210",
identifier "ABCDE1234F", consent true, with the timestamp field set to the
sampled clock value, and the record is persisted. -/
theorem C1_end_to_end (t : String) :
    (run_kyc_session t
      [some "John Smith", some "9876543210", some "abcde1234f", some "yes"]).success
      = true ∧
    (run_kyc_session t
      [some "John Smith", some "9876543210", some "abcde1234f", some "yes"]).record
      = ⟨"John Smith", "9876543210", "ABCDE1234F", true, t⟩ ∧
    session_persisted t
      [some "John Smith", some "9876543210", some "abcde1234f", some "yes"]
      = some ⟨"John Smith", "9876543210", "ABCDE1234F", true, t⟩ :=
  ⟨rfl, rfl, rfl⟩

theorem consentClassify_eq_true (s : String)
    (haff : (strContains (pyLower s) "yes" || strContains (pyLower s) "yeah"
      || strContains (pyLower s) "sure") = true) :
    consentClassify s = some true := by
  unfold consentClassify
  dsimp only
  rw [haff]
  simp

theorem consentClassify_eq_false (s : String)
    (hneg : (strContains (pyLower s) "no" || strContains (pyLower s) "nope") = true)
    (haff : (strContains (pyLower s) "yes" || strContains (pyLower s) "yeah"
      || strContains (pyLower s) "sure") = false) :
    consentClassify s = some false := by
  unfold consentClassify
  dsimp only
  rw [haff, hneg]
  simp

theorem get_consent_cons_of_true {s : String} (rest : List (Option String))
    (h : consentClassify s = some true) :
    get_consent (some s :: rest) = ⟨true, rest, 1, [msgConsentPrompt]⟩ := by
  unfold get_consent listen1 consentAfterCapture
  dsimp only
  rw [h]

theorem get_consent_cons_of_false {s : String} (rest : List (Option String))
    (h : consentClassify s = some false) :
    get_consent (some s :: rest) = ⟨false, rest, 1, [msgConsentPrompt, msgDecline]⟩ := by
  unfold get_consent listen1 consentAfterCapture
  dsimp only
  rw [h]

theorem get_consent_cons_of_none {s : String} (rest : List (Option String))
    (h : consentClassify s = none) :
    get_consent (some s :: rest)
      = ⟨(consentRetryLoop max_retries rest).result,
         (consentRetryLoop max_retries rest).rest,
         (consentRetryLoop max_retries rest).listens + 1,
         msgConsentPrompt :: (consentRetryLoop max_retries rest).spoken⟩ := by
  unfold get_consent listen1 consentAfterCapture
  dsimp only
  rw [h]

/-- C7 (amended): a captured consent response whose lower-cased text contains
"no" or "nope" and contains none of the affirmative substrings
"yes"/"yeah"/"sure" is classified false, the decline acknowledgment is
spoken, and false is returned; a response containing an affirmative
substring is classified true; a response containing none of the keywords is
invalid and hands the remaining stream to the retry loop with the
`max_retries` budget (consuming one listen), and exhausting the retries with
invalid responses returns false. -/
theorem C7_consent (s : String) (rest : List (Option String)) :
    ((strContains (pyLower s) "no" || strContains (pyLower s) "nope") = true →
      (strContains (pyLower s) "yes" || strContains (pyLower s) "yeah"
        || strContains (pyLower s) "sure") = false →
      (get_consent (some s :: rest)).result = false ∧
      msgDecline ∈ (get_consent (some s :: rest)).spoken) ∧
    ((strContains (pyLower s) "yes" || strContains (pyLower s) "yeah"
        || strContains (pyLower s) "sure") = true →
      (get_consent (some s :: rest)).result = true) ∧
    (consentClassify s = none →
      (get_consent (some s :: rest)).result = (consentRetryLoop max_retries rest).result ∧
      (get_consent (some s :: rest)).listens
        = 1 + (consentRetryLoop max_retries rest).listens) ∧
    (get_consent [some "maybe", some "maybe", some "maybe"]).result = false := by
  refine ⟨?_, ?_, ?_, by decide⟩
  · intro hneg haff
    rw [get_consent_cons_of_false rest (consentClassify_eq_false s hneg haff)]
    exact ⟨rfl, by simp⟩
  · intro haff
    rw [get_consent_cons_of_true rest (consentClassify_eq_true s haff)]
  · intro hnone
    rw [get_consent_cons_of_none rest hnone]
    exact ⟨rfl, by dsimp only; omega⟩

/-- C7 witness: the response "no thanks" on the first capture yields a
declined consent with the decline acknowledgment spoken. -/
theorem C7_witness :
    (get_consent [some "no thanks"]).result = false ∧
    msgDecline ∈ (get_consent [some "no thanks"]).spoken :=
  (C7_consent "no thanks" []).1 (by decide) (by decide)

/-- C7 counterexample: the captured response "yes or no" has a lower-cased
text containing the substring "no", yet `get_consent` returns true and never
speaks the decline acknowledgment, refuting the claim as stated. -/
theorem C7_counterexample :
    strContains (pyLower "yes or no") "no" = true ∧
    (get_consent [some "yes or no"]).result = true ∧
    msgDecline ∉ (get_consent [some "yes or no"]).spoken :=
  ⟨by decide, by decide, by decide⟩

/-- C10: affirmative keywords take priority over negative ones: a captured
response containing both an affirmative substring and a negative substring
resolves to consent true without the decline acknowledgment being spoken,
because the affirmative check is evaluated first. -/
theorem C10_affirmative_priority (s : String) (rest : List (Option String))
    (haff : (strContains (pyLower s) "yes" || strContains (pyLower s) "yeah"
      || strContains (pyLower s) "sure") = true)
    (hneg : (strContains (pyLower s) "no" || strContains (pyLower s) "nope") = true) :
    (get_consent (some s :: rest)).result = true ∧
    msgDecline ∉ (get_consent (some s :: rest)).spoken := by
  rw [get_consent_cons_of_true rest (consentClassify_eq_true s haff)]
  exact ⟨rfl, by dsimp only; decide⟩

/-- C10 witness: "yes, not a problem" contains both "yes" and "no" and
resolves to consent true with no decline acknowledgment. -/
theorem C10_witness :
    (get_consent [some "yes, not a problem"]).result = true ∧
    msgDecline ∉ (get_consent [some "yes, not a problem"]).spoken :=
  C10_affirmative_priority "yes, not a problem" [] (by decide) (by decide)

theorem validationRetryLoop_listens_le (v : String → Bool) (e : String → String)
    (f : String) :
    ∀ fuel inputs, (validationRetryLoop v e f fuel inputs).listens ≤ fuel := by
  intro fuel
  induction fuel with
  | zero => intro inputs; simp [validationRetryLoop]
  | succ k ih =>
    intro inputs
    unfold validationRetryLoop
    rcases inputs with _ | ⟨r, rest⟩
    · rcases k with _ | k'
      · simp [listen1]
      · dsimp [listen1]
        have := ih []
        omega
    · rcases r with _ | s
      · rcases k with _ | k'
        · simp [listen1]
        · dsimp [listen1]
          have := ih rest
          omega
      · dsimp [listen1]
        split_ifs with hv
        · dsimp only
          omega
        · have := ih rest
          dsimp only
          omega

theorem afterCapture_listens_le (v : String → Bool) (e : String → String)
    (f s : String) (rest : List (Option String)) :
    (afterCapture v e f s rest).listens ≤ max_retries := by
  unfold afterCapture
  dsimp only
  split_ifs with hv
  · simp [max_retries]
  · exact validationRetryLoop_listens_le v e f max_retries rest

/-- C8: a capture absence during the validation-retry phase consumes one of
the `max_retries` validation retries rather than granting extra attempts:
the validation-retry loop with budget `fuel` performs at most `fuel`
listens, the post-capture phase at most `max_retries` listens, and a whole
field collection never performs more than `2 * max_retries + 1 = 5` listen
calls before returning a value or absent. -/
theorem C8_listen_bound (v : String → Bool) (e : String → String)
    (p f : String) (inputs : List (Option String)) :
    (get_input_with_retry p v e f inputs).listens ≤ 2 * max_retries + 1 ∧
    (∀ fuel ins, (validationRetryLoop v e f fuel ins).listens ≤ fuel) ∧
    (∀ s rest, (afterCapture v e f s rest).listens ≤ max_retries) := by
  refine ⟨?_, validationRetryLoop_listens_le v e f,
    fun s rest => afterCapture_listens_le v e f s rest⟩
  unfold get_input_with_retry
  rcases inputs with _ | ⟨r1, rest1⟩
  · simp [listen1, max_retries]
  · rcases r1 with _ | s1
    · rcases rest1 with _ | ⟨r2, rest2⟩
      · simp [listen1, max_retries]
      · rcases r2 with _ | s2
        · rcases rest2 with _ | ⟨r3, rest3⟩
          · simp [listen1, max_retries]
          · rcases r3 with _ | s3
            · simp [listen1, max_retries]
            · dsimp [listen1]
              have := afterCapture_listens_le v e f s3 rest3
              simp [max_retries] at *
              omega
        · dsimp [listen1]
          have := afterCapture_listens_le v e f s2 rest2
          simp [max_retries] at *
          omega
    · dsimp [listen1]
      have := afterCapture_listens_le v e f s1 rest1
      simp [max_retries] at *
      omega

theorem validationRetryLoop_result_valid (v : String → Bool) (e : String → String)
    (f : String) :
    ∀ fuel ins s, (validationRetryLoop v e f fuel ins).result = some s → v s = true := by
  intro fuel
  induction fuel with
  | zero => intro ins s h; simp [validationRetryLoop] at h
  | succ k ih =>
    intro ins s h
    unfold validationRetryLoop at h
    rcases ins with _ | ⟨r, rest⟩
    · dsimp [listen1] at h
      rcases k with _ | k'
      · simp at h
      · exact ih [] s h
    · rcases r with _ | s0
      · dsimp [listen1] at h
        rcases k with _ | k'
        · simp at h
        · exact ih rest s h
      · dsimp [listen1] at h
        split_ifs at h with hv
        · dsimp only at h
          obtain rfl : e s0 = s := by simpa using h
          exact hv
        · exact ih rest s h

theorem afterCapture_result_valid (v : String → Bool) (e : String → String)
    (f s0 : String) (rest : List (Option String)) (s : String)
    (h : (afterCapture v e f s0 rest).result = some s) : v s = true := by
  unfold afterCapture at h
  dsimp only at h
  split_ifs at h with hv
  · obtain rfl : e s0 = s := by simpa using h
    exact hv
  · exact validationRetryLoop_result_valid v e f max_retries rest s h

theorem get_input_result_valid (p : String) (v : String → Bool)
    (e : String → String) (f : String) (ins : List (Option String)) (s : String)
    (h : (get_input_with_retry p v e f ins).result = some s) : v s = true := by
  unfold get_input_with_retry at h
  rcases ins with _ | ⟨r1, rest1⟩
  · simp [listen1] at h
  · rcases r1 with _ | s1
    · rcases rest1 with _ | ⟨r2, rest2⟩
      · simp [listen1] at h
      · rcases r2 with _ | s2
        · rcases rest2 with _ | ⟨r3, rest3⟩
          · simp [listen1] at h
          · rcases r3 with _ | s3
            · simp [listen1] at h
            · dsimp [listen1] at h
              exact afterCapture_result_valid v e f s3 rest3 s h
        · dsimp [listen1] at h
          exact afterCapture_result_valid v e f s2 rest2 s h
    · dsimp [listen1] at h
      exact afterCapture_result_valid v e f s1 rest1 s h

theorem validate_name_isEmpty_false {s : String} (h : validate_name s = true) :
    s.isEmpty = false := by
  rcases he : s.isEmpty with _ | _
  · rfl
  · rw [(String.isEmpty_iff s).1 he] at h
    exact absurd h (by decide)

theorem validate_phone_isEmpty_false {s : String} (h : validate_phone s = true) :
    s.isEmpty = false := by
  rcases he : s.isEmpty with _ | _
  · rfl
  · rw [(String.isEmpty_iff s).1 he] at h
    exact absurd h (by decide)

theorem validate_pan_isEmpty_false {s : String} (h : validate_pan s = true) :
    s.isEmpty = false := by
  rcases he : s.isEmpty with _ | _
  · rfl
  · rw [(String.isEmpty_iff s).1 he] at h
    exact absurd h (by decide)

theorem validationRetryLoop_spoken_sub (v : String → Bool) (e : String → String)
    (f p : String) :
    ∀ fuel ins x, x ∈ (validationRetryLoop v e f fuel ins).spoken → x ∈ fieldMsgs p f := by
  intro fuel
  induction fuel with
  | zero =>
    intro ins x h
    simp only [validationRetryLoop, List.mem_singleton] at h
    simp [fieldMsgs, h]
  | succ k ih =>
    intro ins x h
    unfold validationRetryLoop at h
    rcases ins with _ | ⟨r, rest⟩
    · dsimp [listen1] at h
      rcases k with _ | k'
      · rcases List.mem_cons.1 h with h | h
        · simp [fieldMsgs, h]
        · simp only [List.mem_singleton] at h
          simp [fieldMsgs, h]
      · rcases List.mem_cons.1 h with h | h
        · simp [fieldMsgs, h]
        · rcases List.mem_cons.1 h with h | h
          · simp [fieldMsgs, h]
          · exact ih [] x h
    · rcases r with _ | s0
      · dsimp [listen1] at h
        rcases k with _ | k'
        · rcases List.mem_cons.1 h with h | h
          · simp [fieldMsgs, h]
          · simp only [List.mem_singleton] at h
            simp [fieldMsgs, h]
        · rcases List.mem_cons.1 h with h | h
          · simp [fieldMsgs, h]
          · rcases List.mem_cons.1 h with h | h
            · simp [fieldMsgs, h]
            · exact ih rest x h
      · dsimp [listen1] at h
        split_ifs at h with hv
        · dsimp only at h
          simp only [List.mem_singleton] at h
          simp [fieldMsgs, h]
        · dsimp only at h
          rcases List.mem_cons.1 h with h | h
          · simp [fieldMsgs, h]
          · exact ih rest x h

theorem afterCapture_spoken_sub (v : String → Bool) (e : String → String)
    (f p s0 : String) (rest : List (Option String)) (x : String)
    (h : x ∈ (afterCapture v e f s0 rest).spoken) : x ∈ fieldMsgs p f := by
  unfold afterCapture at h
  dsimp only at h
  split_ifs at h with hv
  · simp at h
  · exact validationRetryLoop_spoken_sub v e f p max_retries rest x h

theorem get_input_spoken_sub (p : String) (v : String → Bool)
    (e : String → String) (f : String) (ins : List (Option String)) (x : String)
    (h : x ∈ (get_input_with_retry p v e f ins).spoken) : x ∈ fieldMsgs p f := by
  unfold get_input_with_retry at h
  rcases ins with _ | ⟨r1, rest1⟩
  · dsimp [listen1] at h
    simp only [List.mem_cons, List.not_mem_nil, or_false] at h
    rcases h with h | h | h | h <;> simp [fieldMsgs, h]
  · rcases r1 with _ | s1
    · rcases rest1 with _ | ⟨r2, rest2⟩
      · dsimp [listen1] at h
        simp only [List.mem_cons, List.not_mem_nil, or_false] at h
        rcases h with h | h | h | h <;> simp [fieldMsgs, h]
      · rcases r2 with _ | s2
        · rcases rest2 with _ | ⟨r3, rest3⟩
          · dsimp [listen1] at h
            simp only [List.mem_cons, List.not_mem_nil, or_false] at h
            rcases h with h | h | h | h <;> simp [fieldMsgs, h]
          · rcases r3 with _ | s3
            · dsimp [listen1] at h
              simp only [List.mem_cons, List.not_mem_nil, or_false] at h
              rcases h with h | h | h | h <;> simp [fieldMsgs, h]
            · dsimp [listen1] at h
              rcases List.mem_cons.1 h with h | h
              · simp [fieldMsgs, h]
              · rcases List.mem_cons.1 h with h | h
                · simp [fieldMsgs, h]
                · rcases List.mem_cons.1 h with h | h
                  · simp [fieldMsgs, h]
                  · exact afterCapture_spoken_sub v e f p s3 rest3 x h
        · dsimp [listen1] at h
          rcases List.mem_cons.1 h with h | h
          · simp [fieldMsgs, h]
          · rcases List.mem_cons.1 h with h | h
            · simp [fieldMsgs, h]
            · exact afterCapture_spoken_sub v e f p s2 rest2 x h
    · dsimp [listen1] at h
      rcases List.mem_cons.1 h with h | h
      · simp [fieldMsgs, h]
      · exact afterCapture_spoken_sub v e f p s1 rest1 x h

theorem consentRetryLoop_spoken_sub :
    ∀ fuel ins x, x ∈ (consentRetryLoop fuel ins).spoken → x ∈ consentMsgs := by
  intro fuel
  induction fuel with
  | zero =>
    intro ins x h
    simp only [consentRetryLoop, List.mem_singleton] at h
    simp [consentMsgs, h]
  | succ k ih =>
    intro ins x h
    unfold consentRetryLoop at h
    rcases ins with _ | ⟨r, rest⟩
    · dsimp [listen1] at h
      rcases k with _ | k'
      · rcases List.mem_cons.1 h with h | h
        · simp [consentMsgs, h]
        · simp only [List.mem_singleton] at h
          simp [consentMsgs, h]
      · rcases List.mem_cons.1 h with h | h
        · simp [consentMsgs, h]
        · rcases List.mem_cons.1 h with h | h
          · simp [consentMsgs, h]
          · exact ih [] x h
    · rcases r with _ | s0
      · dsimp [listen1] at h
        rcases k with _ | k'
        · rcases List.mem_cons.1 h with h | h
          · simp [consentMsgs, h]
          · simp only [List.mem_singleton] at h
            simp [consentMsgs, h]
        · rcases List.mem_cons.1 h with h | h
          · simp [consentMsgs, h]
          · rcases List.mem_cons.1 h with h | h
            · simp [consentMsgs, h]
            · exact ih rest x h
      · dsimp [listen1] at h
        rcases hc : consentClassify s0 with _ | b
        · rw [hc] at h
          dsimp only at h
          rcases List.mem_cons.1 h with h | h
          · simp [consentMsgs, h]
          · exact ih rest x h
        · rcases b with _ | _ <;> rw [hc] at h <;> dsimp only at h
          · rcases List.mem_cons.1 h with h | h
            · simp [consentMsgs, h]
            · simp only [List.mem_singleton] at h
              simp [consentMsgs, h]
          · simp only [List.mem_singleton] at h
            simp [consentMsgs, h]

theorem consentAfterCapture_spoken_sub (s0 : String) (rest : List (Option String))
    (x : String) (h : x ∈ (consentAfterCapture s0 rest).spoken) : x ∈ consentMsgs := by
  unfold consentAfterCapture at h
  rcases hc : consentClassify s0 with _ | b
  · rw [hc] at h
    exact consentRetryLoop_spoken_sub max_retries rest x h
  · rcases b with _ | _ <;> rw [hc] at h <;> dsimp only at h
    · simp only [List.mem_singleton] at h
      simp [consentMsgs, h]
    · simp at h

theorem get_consent_spoken_sub (ins : List (Option String)) (x : String)
    (h : x ∈ (get_consent ins).spoken) : x ∈ consentMsgs := by
  unfold get_consent at h
  rcases ins with _ | ⟨r1, rest1⟩
  · dsimp [listen1] at h
    simp only [List.mem_cons, List.not_mem_nil, or_false] at h
    rcases h with h | h | h | h <;> simp [consentMsgs, h]
  · rcases r1 with _ | s1
    · rcases rest1 with _ | ⟨r2, rest2⟩
      · dsimp [listen1] at h
        simp only [List.mem_cons, List.not_mem_nil, or_false] at h
        rcases h with h | h | h | h <;> simp [consentMsgs, h]
      · rcases r2 with _ | s2
        · rcases rest2 with _ | ⟨r3, rest3⟩
          · dsimp [listen1] at h
            simp only [List.mem_cons, List.not_mem_nil, or_false] at h
            rcases h with h | h | h | h <;> simp [consentMsgs, h]
          · rcases r3 with _ | s3
            · dsimp [listen1] at h
              simp only [List.mem_cons, List.not_mem_nil, or_false] at h
              rcases h with h | h | h | h <;> simp [consentMsgs, h]
            · dsimp [listen1] at h
              rcases List.mem_cons.1 h with h | h
              · simp [consentMsgs, h]
              · rcases List.mem_cons.1 h with h | h
                · simp [consentMsgs, h]
                · rcases List.mem_cons.1 h with h | h
                  · simp [consentMsgs, h]
                  · exact consentAfterCapture_spoken_sub s3 rest3 x h
        · dsimp [listen1] at h
          rcases List.mem_cons.1 h with h | h
          · simp [consentMsgs, h]
          · rcases List.mem_cons.1 h with h | h
            · simp [consentMsgs, h]
            · exact consentAfterCapture_spoken_sub s2 rest2 x h
    · dsimp [listen1] at h
      rcases List.mem_cons.1 h with h | h
      · simp [consentMsgs, h]
      · exact consentAfterCapture_spoken_sub s1 rest1 x h

theorem ne_empty_of_isEmpty_false {s : String} (h : s.isEmpty = false) : s ≠ "" := by
  intro he
  rw [he] at h
  exact absurd h (by decide)

theorem get_input_absent3 (p : String) (v : String → Bool) (e : String → String)
    (f : String) (rest : List (Option String)) :
    get_input_with_retry p v e f (none :: none :: none :: rest)
      = ⟨none, rest, 3, [p, msgReprompt1, msgReprompt2, msgCantHear f]⟩ := rfl

theorem get_input_cons_valid (p : String) (v : String → Bool) (e : String → String)
    (f s : String) (rest : List (Option String)) (hv : v (e s) = true) :
    get_input_with_retry p v e f (some s :: rest) = ⟨some (e s), rest, 1, [p]⟩ := by
  unfold get_input_with_retry listen1 afterCapture
  dsimp only
  rw [hv]
  simp

theorem run_session_main (t : String) (inputs : List (Option String)) :
    ((run_kyc_session t inputs).success = true →
      (run_kyc_session t inputs).record.timestamp = t) ∧
    ((run_kyc_session t inputs).success = false →
      (run_kyc_session t inputs).record.timestamp = "" ∧
      msgSummaryIntro ∉ (run_kyc_session t inputs).spoken) ∧
    (run_kyc_session t inputs).trace.head? = some initKYC ∧
    chainB assignStepB (run_kyc_session t inputs).trace = true ∧
    (run_kyc_session t inputs).trace.all fieldInvB = true ∧
    (run_kyc_session t inputs).trace.getLast? = some (run_kyc_session t inputs).record := by
  have hname : ∀ ins,
      msgSummaryIntro ∉ (get_input_with_retry msgNamePrompt validate_name id "name" ins).spoken := by
    intro ins hm
    have h2 := get_input_spoken_sub msgNamePrompt validate_name id "name" ins msgSummaryIntro hm
    revert h2
    decide
  have hphone : ∀ ins,
      msgSummaryIntro ∉ (get_input_with_retry msgPhonePrompt validate_phone extract_phone
        "phone number" ins).spoken := by
    intro ins hm
    have h2 := get_input_spoken_sub msgPhonePrompt validate_phone extract_phone
      "phone number" ins msgSummaryIntro hm
    revert h2
    decide
  have hpan : ∀ ins,
      msgSummaryIntro ∉ (get_input_with_retry msgPanPrompt validate_pan extract_pan
        "PAN" ins).spoken := by
    intro ins hm
    have h2 := get_input_spoken_sub msgPanPrompt validate_pan extract_pan
      "PAN" ins msgSummaryIntro hm
    revert h2
    decide
  have hcons : ∀ ins, msgSummaryIntro ∉ (get_consent ins).spoken := by
    intro ins hm
    have h2 := get_consent_spoken_sub ins msgSummaryIntro hm
    revert h2
    decide
  unfold run_kyc_session
  dsimp only
  rcases h1 : (get_input_with_retry msgNamePrompt validate_name id "name" inputs).result
    with _ | nm
  · dsimp only
    refine ⟨fun h => by simp at h, fun _ => ⟨rfl, ?_⟩, rfl, rfl, by decide, rfl⟩
    intro hm
    rcases List.mem_append.1 hm with hm | hm
    · rcases List.mem_cons.1 hm with hm | hm
      · exact absurd hm (by decide)
      · exact hname inputs hm
    · exact absurd (List.mem_singleton.1 hm) (by decide)
  · dsimp only
    have hv1 : validate_name nm = true :=
      get_input_result_valid msgNamePrompt validate_name id "name" inputs nm h1
    have hne1 : nm.isEmpty = false := validate_name_isEmpty_false hv1
    have hnm : (nm != "") = true := bne_iff_ne.2 (ne_empty_of_isEmpty_false hne1)
    rw [hne1]
    simp only [Bool.false_eq_true, if_false]
    rcases h2 : (get_input_with_retry msgPhonePrompt validate_phone extract_phone
      "phone number" (get_input_with_retry msgNamePrompt validate_name id "name"
        inputs).rest).result with _ | ph
    · dsimp only
      refine ⟨fun h => by simp at h, fun _ => ⟨rfl, ?_⟩, rfl, ?_, ?_, rfl⟩
      · intro hm
        rcases List.mem_append.1 hm with hm | hm
        · rcases List.mem_append.1 hm with hm | hm
          · rcases List.mem_cons.1 hm with hm | hm
            · exact absurd hm (by decide)
            · exact hname inputs hm
          · exact hphone _ hm
        · exact absurd (List.mem_singleton.1 hm) (by decide)
      · simp [chainB, assignStepB, initKYC, hv1]
      · simp [fieldInvB, initKYC, hv1]
    · dsimp only
      have hv2 : validate_phone ph = true :=
        get_input_result_valid msgPhonePrompt validate_phone extract_phone
          "phone number" _ ph h2
      have hne2 : ph.isEmpty = false := validate_phone_isEmpty_false hv2
      have hph : (ph != "") = true := bne_iff_ne.2 (ne_empty_of_isEmpty_false hne2)
      rw [hne2]
      simp only [Bool.false_eq_true, if_false]
      rcases h3 : (get_input_with_retry msgPanPrompt validate_pan extract_pan
        "PAN" (get_input_with_retry msgPhonePrompt validate_phone extract_phone
          "phone number" (get_input_with_retry msgNamePrompt validate_name id "name"
            inputs).rest).rest).result with _ | pn
      · dsimp only
        refine ⟨fun h => by simp at h, fun _ => ⟨rfl, ?_⟩, rfl, ?_, ?_, rfl⟩
        · intro hm
          rcases List.mem_append.1 hm with hm | hm
          · rcases List.mem_append.1 hm with hm | hm
            · rcases List.mem_append.1 hm with hm | hm
              · rcases List.mem_cons.1 hm with hm | hm
                · exact absurd hm (by decide)
                · exact hname inputs hm
              · exact hphone _ hm
            · exact hpan _ hm
          · exact absurd (List.mem_singleton.1 hm) (by decide)
        · simp [chainB, assignStepB, initKYC, hv1, hv2, hnm]
        · simp [fieldInvB, initKYC, hv1, hv2]
      · dsimp only
        have hv3 : validate_pan pn = true :=
          get_input_result_valid msgPanPrompt validate_pan extract_pan "PAN" _ pn h3
        have hne3 : pn.isEmpty = false := validate_pan_isEmpty_false hv3
        have hpn : (pn != "") = true := bne_iff_ne.2 (ne_empty_of_isEmpty_false hne3)
        rw [hne3]
        simp only [Bool.false_eq_true, if_false]
        rcases hc : (get_consent (get_input_with_retry msgPanPrompt validate_pan
          extract_pan "PAN" (get_input_with_retry msgPhonePrompt validate_phone
            extract_phone "phone number" (get_input_with_retry msgNamePrompt
              validate_name id "name" inputs).rest).rest).rest).result with _ | _
        · simp only [Bool.false_eq_true, if_false]
          refine ⟨fun h => by simp at h, fun _ => ⟨rfl, ?_⟩, rfl, ?_, ?_, rfl⟩
          · intro hm
            rcases List.mem_append.1 hm with hm | hm
            · rcases List.mem_append.1 hm with hm | hm
              · rcases List.mem_append.1 hm with hm | hm
                · rcases List.mem_cons.1 hm with hm | hm
                  · exact absurd hm (by decide)
                  · exact hname inputs hm
                · exact hphone _ hm
              · exact hpan _ hm
            · exact hcons _ hm
          · simp [chainB, assignStepB, initKYC, hv1, hv2, hv3, hnm, hph, hpn]
          · simp [fieldInvB, initKYC, hv1, hv2, hv3]
        · refine ⟨fun _ => rfl, fun h => by simp at h, rfl, ?_, ?_, rfl⟩
          · simp [chainB, assignStepB, initKYC, hv1, hv2, hv3, hnm, hph, hpn]
          · simp [fieldInvB, initKYC, hv1, hv2, hv3]

/-- C2: with `max_retries = 2`, three consecutive capture absences for any
required field (name, phone, identifier) make the field collector return
absent and the session abort immediately: the remaining stream `rest` is
never consumed, the failed field stays empty in the partial record, and
every earlier collected field keeps its value. -/
theorem C2_retry_exhaustion (t n p : String) (rest : List (Option String))
    (hn : validate_name n = true) (hp : validate_phone (extract_phone p) = true) :
    ((run_kyc_session t ([none, none, none] ++ rest)).success = false ∧
     (run_kyc_session t ([none, none, none] ++ rest)).record = initKYC ∧
     (run_kyc_session t ([none, none, none] ++ rest)).rest = rest) ∧
    ((run_kyc_session t (some n :: none :: none :: none :: rest)).success = false ∧
     (run_kyc_session t (some n :: none :: none :: none :: rest)).record
       = { initKYC with name := n } ∧
     (run_kyc_session t (some n :: none :: none :: none :: rest)).rest = rest) ∧
    ((run_kyc_session t (some n :: some p :: none :: none :: none :: rest)).success
       = false ∧
     (run_kyc_session t (some n :: some p :: none :: none :: none :: rest)).record
       = { initKYC with name := n, phone := extract_phone p } ∧
     (run_kyc_session t (some n :: some p :: none :: none :: none :: rest)).rest
       = rest) := by
  have hne1 : n.isEmpty = false := validate_name_isEmpty_false hn
  have hne2 : (extract_phone p).isEmpty = false := validate_phone_isEmpty_false hp
  refine ⟨⟨rfl, rfl, rfl⟩, ?_, ?_⟩
  · unfold run_kyc_session
    dsimp only
    rw [get_input_cons_valid msgNamePrompt validate_name id "name" n
      (none :: none :: none :: rest) hn]
    dsimp only [id]
    rw [hne1]
    simp only [Bool.false_eq_true, if_false]
    rw [get_input_absent3]
    exact ⟨rfl, rfl, rfl⟩
  · unfold run_kyc_session
    dsimp only
    rw [get_input_cons_valid msgNamePrompt validate_name id "name" n
      (some p :: none :: none :: none :: rest) hn]
    dsimp only [id]
    rw [hne1]
    simp only [Bool.false_eq_true, if_false]
    rw [get_input_cons_valid msgPhonePrompt validate_phone extract_phone
      "phone number" p (none :: none :: none :: rest) hp]
    dsimp only
    rw [hne2]
    simp only [Bool.false_eq_true, if_false]
    rw [get_input_absent3]
    exact ⟨rfl, rfl, rfl⟩

/-- C2 witness: with a valid name captured first and then three absences
while collecting the phone number, the session aborts with only the name
populated and the rest of the stream unread. -/
theorem C2_witness :
    (run_kyc_session "T" (some "John Smith" :: none :: none :: none :: [some "x"])).success
      = false ∧
    (run_kyc_session "T" (some "John Smith" :: none :: none :: none :: [some "x"])).record
      = { initKYC with name := "John Smith" } ∧
    (run_kyc_session "T" (some "John Smith" :: none :: none :: none :: [some "x"])).rest
      = [some "x"] :=
  (C2_retry_exhaustion "T" "John Smith" "9876543210" [some "x"]
    (by decide) (by decide)).2.1

/-- C3: the timestamp field is set only on the successful-completion path of
`run_kyc_session`: on every failure path the timestamp keeps its initial
empty value, the summary is not spoken, and nothing is persisted; on the
success path it equals the sampled clock.  In particular a consent response
of "no" yields a record with name/phone/identifier populated, consent false,
timestamp empty, and nothing written. -/
theorem C3_timestamp_frame (t : String) (inputs : List (Option String)) :
    ((run_kyc_session t inputs).success = false →
      (run_kyc_session t inputs).record.timestamp = "" ∧
      msgSummaryIntro ∉ (run_kyc_session t inputs).spoken ∧
      session_persisted t inputs = none) ∧
    ((run_kyc_session t inputs).success = true →
      (run_kyc_session t inputs).record.timestamp = t) ∧
    (run_kyc_session t
      [some "John Smith", some "9876543210", some "abcde1234f", some "no"]).success
      = false ∧
    (run_kyc_session t
      [some "John Smith", some "9876543210", some "abcde1234f", some "no"]).record
      = ⟨"John Smith", "9876543210", "ABCDE1234F", false, ""⟩ ∧
    session_persisted t
      [some "John Smith", some "9876543210", some "abcde1234f", some "no"] = none ∧
    msgSummaryIntro ∉ (run_kyc_session t
      [some "John Smith", some "9876543210", some "abcde1234f", some "no"]).spoken := by
  refine ⟨?_, (run_session_main t inputs).1, rfl, rfl, rfl, ?_⟩
  swap
  · rw [show (run_kyc_session t
      [some "John Smith", some "9876543210", some "abcde1234f", some "no"]).spoken
      = [msgWelcome, msgNamePrompt, msgPhonePrompt, msgPanPrompt, msgConsentPrompt,
         msgDecline] from rfl]
    decide
  intro hf
  obtain ⟨hts, hsp⟩ := (run_session_main t inputs).2.1 hf
  refine ⟨hts, hsp, ?_⟩
  unfold session_persisted
  dsimp only
  rw [hf]
  simp

/-- C3 witness: on an empty input stream (all captures absent) the session
fails, the timestamp stays empty and nothing is persisted. -/
theorem C3_witness :
    (run_kyc_session "T" []).record.timestamp = "" ∧
    session_persisted "T" [] = none := by
  have h := (C3_timestamp_frame "T" []).1 (by decide)
  exact ⟨h.1, h.2.2⟩

/-- C9: the session record is an invariant-preserving state: the ghost trace
of record states starts with the all-empty record, every adjacent pair is a
legal in-order single-field assignment (name → phone → identifier → consent
→ timestamp, never assigning a non-empty field again), every state satisfies
the field validators on its non-empty text fields, and the final record is
the last state of the trace. -/
theorem C9_record_invariant (t : String) (inputs : List (Option String)) :
    (run_kyc_session t inputs).trace.head? = some initKYC ∧
    chainB assignStepB (run_kyc_session t inputs).trace = true ∧
    (run_kyc_session t inputs).trace.all fieldInvB = true ∧
    (run_kyc_session t inputs).trace.getLast? = some (run_kyc_session t inputs).record :=
  ⟨(run_session_main t inputs).2.2.1, (run_session_main t inputs).2.2.2.1,
   (run_session_main t inputs).2.2.2.2.1, (run_session_main t inputs).2.2.2.2.2⟩

end KYC
